import Mathlib

/-!
Shallow embedding of the `giturl` Go package (files `parse.go` and the
entity/formatter file).  Go strings are modelled as `List Char`; Go's
`(T, error)` returns are modelled as `Except (List Char) GitURL`, the error
being the formatted message string.  `strings.EqualFold` is modelled as
ASCII case folding (all scheme prefixes and the `.git` suffix are ASCII).
Machine integers: the port is a `Nat`, with the 16-bit bound enforced by the
embedded `strconv.ParseUint(side, 10, 16)` exactly as in the source.
-/

namespace Giturl

/-- `ProtocolType` enumeration (`iota` order: SSH, Git, HTTP, HTTPs, FTP,
FTPs, SCP); the Go zero value is `ssh`. -/
inductive ProtocolType where
  | ssh
  | git
  | http
  | https
  | ftp
  | ftps
  | scp
deriving DecidableEq, Repr

/-- `ImplicitUser = ""`. -/
def ImplicitUser : List Char := []

/-- `DefaultUser = "git"`. -/
def DefaultUser : List Char := "git".data

/-- `ImplicitPort uint16 = 0`. -/
def ImplicitPort : Nat := 0

/-- `DefaultSSHPort uint16 = 22`. -/
def DefaultSSHPort : Nat := 22

/-- `DefaultGitPort uint16 = 9418`. -/
def DefaultGitPort : Nat := 9418

/-- `DefaultHTTPPort uint16 = 80`. -/
def DefaultHTTPPort : Nat := 80

/-- `DefaultHTTPsPort uint16 = 443`. -/
def DefaultHTTPsPort : Nat := 443

/-- `DefaultFTPPort uint16 = 21`. -/
def DefaultFTPPort : Nat := 21

/-- `DefaultFTPsPort uint16 = 990`. -/
def DefaultFTPsPort : Nat := 990

def prefixSSH : List Char := "ssh://".data

def prefixGit : List Char := "git://".data

def prefixHTTP : List Char := "http://".data

def prefixHTTPs : List Char := "https://".data

def prefixFTP : List Char := "ftp://".data

def prefixFTPs : List Char := "ftps://".data

def suffixGit : List Char := ".git".data

/-- ASCII model of `strings.EqualFold`: equality after lower-casing. -/
def eqFold (a b : List Char) : Bool :=
  a.map Char.toLower == b.map Char.toLower

/-- `hasPrefix(url, prefix)` from `parse.go`: length guard, then
case-insensitive comparison of the leading slice. -/
def hasPrefixFold (url pre : List Char) : Bool :=
  if url.length < pre.length then false
  else eqFold (url.take pre.length) pre

/-- `removePrefix(url, prefix)` from `parse.go`. -/
def removePrefixFold (url pre : List Char) : List Char :=
  if url.length < pre.length then url
  else if eqFold (url.take pre.length) pre then url.drop pre.length
  else url

/-- `removeSuffix(url, suffix)` from `parse.go`: first
`strings.TrimSuffix(url, "/")` (exact, at most one), then a case-insensitive
strip of `suffix`. -/
def removeSuffixFold (url suf : List Char) : List Char :=
  let url := if ['/'].isSuffixOf url then url.take (url.length - 1) else url
  if url.length < suf.length then url
  else if eqFold (url.drop (url.length - suf.length)) suf then
    url.take (url.length - suf.length)
  else url

/-- `strings.Index(s, sep)` scanning from position `i`: the first index at
which `sep` occurs as a contiguous sublist. -/
def indexOfFrom (sep : List Char) : List Char → Nat → Option Nat
  | s, i =>
    if sep.isPrefixOf s then some i
    else
      match s with
      | [] => none
      | _ :: t => indexOfFrom sep t (i + 1)

/-- `strings.LastIndex(s, sep)`: the last index at which `sep` occurs. -/
def lastIndexOf (s sep : List Char) : Option Nat :=
  (((List.range (s.length + 1)).filter fun i => sep.isPrefixOf (s.drop i))).getLast?

/-- `cut(s, sep)` from `parse.go` (split at the first occurrence;
`(s, "", false)` when absent). -/
def cut (s sep : List Char) : List Char × List Char × Bool :=
  match indexOfFrom sep s 0 with
  | some i => (s.take i, s.drop (i + sep.length), true)
  | none => (s, [], false)

/-- `lastCut(s, sep)` from `parse.go` (split at the last occurrence;
`("", s, false)` when absent). -/
def lastCut (s sep : List Char) : List Char × List Char × Bool :=
  match lastIndexOf s sep with
  | some i => (s.take i, s.drop (i + sep.length), true)
  | none => ([], s, false)

/-- `strconv.ParseUint(s, 10, 16)`: non-empty, decimal digits only, and the
value must fit in 16 bits; `none` models the error return. -/
def parsePortU16 (s : List Char) : Option Nat :=
  if s.isEmpty then none
  else if s.all Char.isDigit then
    if s.foldl (fun a c => a * 10 + (c.toNat - 48)) 0 ≤ 65535 then
      some (s.foldl (fun a c => a * 10 + (c.toNat - 48)) 0)
    else none
  else none

/-- Decimal digit characters of `n` (the `fmt.Sprintf("%d", port)` rendering),
with a fuel argument to keep the recursion structural. -/
def natDigitsAux : Nat → Nat → List Char
  | 0, _ => []
  | fuel + 1, n =>
    if n < 10 then [Char.ofNat (48 + n)]
    else natDigitsAux fuel (n / 10) ++ [Char.ofNat (48 + n % 10)]

def natDigits (n : Nat) : List Char := natDigitsAux (n + 1) n

/-- The canonical entity `GitURL` (field order as in the Go struct). -/
structure GitURL where
  protocol : ProtocolType
  port : Nat
  user : List Char
  host : List Char
  path : List Char
  repo : List Char
  raw : List Char
deriving DecidableEq, Repr

deriving instance DecidableEq for Except

/-- Error message of `fmt.Errorf("%w, missing path to repo", ErrInvalidURL)`. -/
def errMissingPath : List Char := "invalid url, missing path to repo".data

/-- Error message of `fmt.Errorf("%w, illegal port \x27%s\x27", ErrInvalidURL, port)`. -/
def errIllegalPort (p : List Char) : List Char :=
  "invalid url, illegal port \x27".data ++ p ++ "\x27".data

/-- Error message of `fmt.Errorf("%w, expected \x27:\x27", ErrInvalidURL)`. -/
def errExpectedColon : List Char := "invalid url, expected \x27:\x27".data

/-- `parseSSHURL` from `parse.go`. -/
def parseSSHURL (url : List Char) : Except (List Char) GitURL :=
  let left0 := removePrefixFold (removeSuffixFold url suffixGit) prefixSSH
  let c1 := cut left0 ['@']
  let user := if c1.2.2 then c1.1 else []
  let left1 := if c1.2.2 then c1.2.1 else left0
  let c2 := cut left1 ['/']
  if c2.2.2 then
    let c3 := cut c2.1 [':']
    let pr := lastCut c2.2.1 ['/']
    if c3.2.2 then
      match parsePortU16 c3.2.1 with
      | some p => .ok ⟨.ssh, p, user, c3.1, pr.1, pr.2.1, url⟩
      | none => .error (errIllegalPort c3.2.1)
    else .ok ⟨.ssh, DefaultSSHPort, user, c3.1, pr.1, pr.2.1, url⟩
  else .error errMissingPath

/-- `parseGitURL` from `parse.go` (no user extraction). -/
def parseGitURL (url : List Char) : Except (List Char) GitURL :=
  let left0 := removePrefixFold (removeSuffixFold url suffixGit) prefixGit
  let c2 := cut left0 ['/']
  if c2.2.2 then
    let c3 := cut c2.1 [':']
    let pr := lastCut c2.2.1 ['/']
    if c3.2.2 then
      match parsePortU16 c3.2.1 with
      | some p => .ok ⟨.git, p, [], c3.1, pr.1, pr.2.1, url⟩
      | none => .error (errIllegalPort c3.2.1)
    else .ok ⟨.git, DefaultGitPort, [], c3.1, pr.1, pr.2.1, url⟩
  else .error errMissingPath

/-- `parseHTTPURL` from `parse.go`.  The protocol field is first the Go zero
value (`ssh`), then overwritten by the `hasPrefix` tests; the two prefix
strips are applied in source order. -/
def parseHTTPURL (url : List Char) : Except (List Char) GitURL :=
  let proto : ProtocolType :=
    if hasPrefixFold url prefixHTTPs then .https
    else if hasPrefixFold url prefixHTTP then .http
    else .ssh
  let left0 := removeSuffixFold url suffixGit
  let left1 := if hasPrefixFold url prefixHTTP then removePrefixFold left0 prefixHTTP else left0
  let left2 := if hasPrefixFold url prefixHTTPs then removePrefixFold left1 prefixHTTPs else left1
  let c2 := cut left2 ['/']
  if c2.2.2 then
    let c3 := cut c2.1 [':']
    let pr := lastCut c2.2.1 ['/']
    if c3.2.2 then
      match parsePortU16 c3.2.1 with
      | some p => .ok ⟨proto, p, [], c3.1, pr.1, pr.2.1, url⟩
      | none => .error (errIllegalPort c3.2.1)
    else
      let defPort :=
        if proto = ProtocolType.http then DefaultHTTPPort
        else if proto = ProtocolType.https then DefaultHTTPsPort
        else 0
      .ok ⟨proto, defPort, [], c3.1, pr.1, pr.2.1, url⟩
  else .error errMissingPath

/-- `parseFTPURL` from `parse.go` (same shape as the HTTP parser with the
FTP prefixes and defaults). -/
def parseFTPURL (url : List Char) : Except (List Char) GitURL :=
  let proto : ProtocolType :=
    if hasPrefixFold url prefixFTPs then .ftps
    else if hasPrefixFold url prefixFTP then .ftp
    else .ssh
  let left0 := removeSuffixFold url suffixGit
  let left1 := if hasPrefixFold url prefixFTP then removePrefixFold left0 prefixFTP else left0
  let left2 := if hasPrefixFold url prefixFTPs then removePrefixFold left1 prefixFTPs else left1
  let c2 := cut left2 ['/']
  if c2.2.2 then
    let c3 := cut c2.1 [':']
    let pr := lastCut c2.2.1 ['/']
    if c3.2.2 then
      match parsePortU16 c3.2.1 with
      | some p => .ok ⟨proto, p, [], c3.1, pr.1, pr.2.1, url⟩
      | none => .error (errIllegalPort c3.2.1)
    else
      let defPort :=
        if proto = ProtocolType.ftp then DefaultFTPPort
        else if proto = ProtocolType.ftps then DefaultFTPsPort
        else 0
      .ok ⟨proto, defPort, [], c3.1, pr.1, pr.2.1, url⟩
  else .error errMissingPath

/-- `parseSCPURL` from `parse.go`. -/
def parseSCPURL (url : List Char) : Except (List Char) GitURL :=
  let left0 := removeSuffixFold url suffixGit
  let c1 := cut left0 ['@']
  let user := if c1.2.2 then c1.1 else []
  let left1 := if c1.2.2 then c1.2.1 else left0
  let c2 := cut left1 [':']
  if c2.2.2 then
    let pr := lastCut c2.2.1 ['/']
    .ok ⟨.scp, DefaultSSHPort, user, c2.1, pr.1, pr.2.1, url⟩
  else .error errExpectedColon

/-- `parseURL` from `parse.go`: the protocol classifier dispatch. -/
def parseURL (url : List Char) : Except (List Char) GitURL :=
  if hasPrefixFold url prefixSSH then parseSSHURL url
  else if hasPrefixFold url prefixGit then parseGitURL url
  else if hasPrefixFold url prefixHTTP || hasPrefixFold url prefixHTTPs then parseHTTPURL url
  else if hasPrefixFold url prefixFTP || hasPrefixFold url prefixFTPs then parseFTPURL url
  else parseSCPURL url

/-- `NewGitURL`. -/
def NewGitURL (url : List Char) : Except (List Char) GitURL := parseURL url

/-- `ToSSHFormat(user, port, withSuffix)`. -/
def ToSSHFormat (g : GitURL) (user : List Char) (port : Nat) (withSuffix : Bool) : List Char :=
  let userPart := if user = ImplicitUser then [] else user ++ ['@']
  let hostPart := g.host ++ (if port = ImplicitPort then [] else [':'] ++ natDigits port)
  let pathPart := ['/'] ++ g.path ++ ['/'] ++ g.repo ++ (if withSuffix then suffixGit else [])
  prefixSSH ++ userPart ++ hostPart ++ pathPart

/-- `ToGitFormat(port, withSuffix)`. -/
def ToGitFormat (g : GitURL) (port : Nat) (withSuffix : Bool) : List Char :=
  let hostPart := g.host ++ (if port = ImplicitPort then [] else [':'] ++ natDigits port)
  let pathPart := ['/'] ++ g.path ++ ['/'] ++ g.repo ++ (if withSuffix then suffixGit else [])
  prefixGit ++ hostPart ++ pathPart

/-- `ToHTTPFormat(port, isSecure, withSuffix)`. -/
def ToHTTPFormat (g : GitURL) (port : Nat) (isSecure : Bool) (withSuffix : Bool) : List Char :=
  let prefixPart := if isSecure then prefixHTTPs else prefixHTTP
  let hostPart := g.host ++ (if port = ImplicitPort then [] else [':'] ++ natDigits port)
  let pathPart := ['/'] ++ g.path ++ ['/'] ++ g.repo ++ (if withSuffix then suffixGit else [])
  prefixPart ++ hostPart ++ pathPart

/-- `ToFTPFormat(port, isSecure, withSuffix)`. -/
def ToFTPFormat (g : GitURL) (port : Nat) (isSecure : Bool) (withSuffix : Bool) : List Char :=
  let prefixPart := if isSecure then prefixFTPs else prefixFTP
  let hostPart := g.host ++ (if port = ImplicitPort then [] else [':'] ++ natDigits port)
  let pathPart := ['/'] ++ g.path ++ ['/'] ++ g.repo ++ (if withSuffix then suffixGit else [])
  prefixPart ++ hostPart ++ pathPart

/-- `ToSCPFormat(user, withSuffix)`. -/
def ToSCPFormat (g : GitURL) (user : List Char) (withSuffix : Bool) : List Char :=
  let userPart := if user = ImplicitUser then [] else user ++ ['@']
  let pathPart := [':'] ++ g.path ++ ['/'] ++ g.repo ++ (if withSuffix then suffixGit else [])
  userPart ++ g.host ++ pathPart

/-! Claim-level helper definitions.  The `*Remainder` functions name the
host-and-path text each parser works on after its pre-processing (suffix
strip, scheme strip and, for SSH/SCP, the `user@` split); they are
definitionally the `left` value of the corresponding parser at the point
where the host/path separator is sought. -/

def isErr : Except (List Char) GitURL → Bool
  | .error _ => true
  | .ok _ => false

def sshRemainder (url : List Char) : List Char :=
  let left0 := removePrefixFold (removeSuffixFold url suffixGit) prefixSSH
  let c1 := cut left0 ['@']
  if c1.2.2 then c1.2.1 else left0

def gitRemainder (url : List Char) : List Char :=
  removePrefixFold (removeSuffixFold url suffixGit) prefixGit

def httpRemainder (url : List Char) : List Char :=
  let left0 := removeSuffixFold url suffixGit
  let left1 := if hasPrefixFold url prefixHTTP then removePrefixFold left0 prefixHTTP else left0
  if hasPrefixFold url prefixHTTPs then removePrefixFold left1 prefixHTTPs else left1

def ftpRemainder (url : List Char) : List Char :=
  let left0 := removeSuffixFold url suffixGit
  let left1 := if hasPrefixFold url prefixFTP then removePrefixFold left0 prefixFTP else left0
  if hasPrefixFold url prefixFTPs then removePrefixFold left1 prefixFTPs else left1

def scpRemainder (url : List Char) : List Char :=
  let left0 := removeSuffixFold url suffixGit
  let c1 := cut left0 ['@']
  if c1.2.2 then c1.2.1 else left0

/-- Structural failure of a scheme-ful parser on its remainder: either no
`/` separates host[:port] from a path, or a port substring is present before
the first `/` and fails to parse as an unsigned 16-bit integer. -/
def hostPathErr (left : List Char) : Bool :=
  let c2 := cut left ['/']
  if c2.2.2 then
    let c3 := cut c2.1 [':']
    c3.2.2 && (parsePortU16 c3.2.1).isNone
  else true

/-- The spec's three structural error causes, per classified scheme. -/
def errCond (url : List Char) : Bool :=
  if hasPrefixFold url prefixSSH then hostPathErr (sshRemainder url)
  else if hasPrefixFold url prefixGit then hostPathErr (gitRemainder url)
  else if hasPrefixFold url prefixHTTP || hasPrefixFold url prefixHTTPs then
    hostPathErr (httpRemainder url)
  else if hasPrefixFold url prefixFTP || hasPrefixFold url prefixFTPs then
    hostPathErr (ftpRemainder url)
  else !(cut (scpRemainder url) [':']).2.2

/-- Whether a port substring is present (a `:` before the first `/` of the
remainder); the SCP shorthand has no port syntax at all. -/
def hasExplicitPort (url : List Char) : Bool :=
  if hasPrefixFold url prefixSSH then (cut (cut (sshRemainder url) ['/']).1 [':']).2.2
  else if hasPrefixFold url prefixGit then (cut (cut (gitRemainder url) ['/']).1 [':']).2.2
  else if hasPrefixFold url prefixHTTP || hasPrefixFold url prefixHTTPs then
    (cut (cut (httpRemainder url) ['/']).1 [':']).2.2
  else if hasPrefixFold url prefixFTP || hasPrefixFold url prefixFTPs then
    (cut (cut (ftpRemainder url) ['/']).1 [':']).2.2
  else false

/-- The scheme's conventional default port (SCP is an SSH alias). -/
def defaultPort : ProtocolType → Nat
  | .ssh => DefaultSSHPort
  | .git => DefaultGitPort
  | .http => DefaultHTTPPort
  | .https => DefaultHTTPsPort
  | .ftp => DefaultFTPPort
  | .ftps => DefaultFTPsPort
  | .scp => DefaultSSHPort

/-- Which of the five parsing strategies the classifier selects. -/
inductive URLClass where
  | ssh
  | git
  | http
  | ftp
  | scp
deriving DecidableEq, Repr

def classify (url : List Char) : URLClass :=
  if hasPrefixFold url prefixSSH then .ssh
  else if hasPrefixFold url prefixGit then .git
  else if hasPrefixFold url prefixHTTP || hasPrefixFold url prefixHTTPs then .http
  else if hasPrefixFold url prefixFTP || hasPrefixFold url prefixFTPs then .ftp
  else .scp

/-- The protocol value the chosen parser stamps on the entity, read off the
same `hasPrefix` tests the parsers use. -/
def protoChoice (url : List Char) : ProtocolType :=
  if hasPrefixFold url prefixSSH then .ssh
  else if hasPrefixFold url prefixGit then .git
  else if hasPrefixFold url prefixHTTP || hasPrefixFold url prefixHTTPs then
    (if hasPrefixFold url prefixHTTPs then .https
     else if hasPrefixFold url prefixHTTP then .http
     else .ssh)
  else if hasPrefixFold url prefixFTP || hasPrefixFold url prefixFTPs then
    (if hasPrefixFold url prefixFTPs then .ftps
     else if hasPrefixFold url prefixFTP then .ftp
     else .ssh)
  else .scp

/-- The spec's well-formed example inputs (the successful rows of the
repository's parse test table). -/
def specExamples : List (List Char) :=
  ["ssh://git@gitlab.com/charlie/wto/bomb.git".data,
   "ssh://git@gitlab.com:22/charlie/wto/bomb.git".data,
   "ssh://gitlab.com:22/charlie/wto/bomb.git".data,
   "git://gitlab.com/charlie/wto/bomb.git".data,
   "git://gitlab.com:12345/charlie/wto/bomb.git".data,
   "http://gitlab.com/charlie/wto/bomb.git".data,
   "http://gitlab.com:8080/charlie/wto/bomb.git".data,
   "https://gitlab.com/charlie/wto/bomb.git".data,
   "ftp://gitlab.com/charlie/wto/bomb.git".data,
   "ftps://gitlab.com/charlie/wto/bomb.git".data,
   "git@gitlab.com:charlie/wto/bomb.git".data,
   "ssh://admin@119.91.33.58:29418/All-Projects".data]

/-! ## Claims -/

/-- C1: Round-trip law — for each scheme, parsing a well-formed example URL
and formatting the entity back in the same scheme with the original user,
the original port and the input's suffix presence reproduces the normalized
input byte-for-byte (SSH, Git, HTTP, HTTPS, FTP, FTPS, and the SCP
shorthand). -/
theorem roundTrip_same_scheme :
    (parseURL "ssh://git@gitlab.com:22/charlie/wto/bomb.git".data).map
        (fun g => ToSSHFormat g g.user g.port true) =
      .ok "ssh://git@gitlab.com:22/charlie/wto/bomb.git".data
  ∧ (parseURL "git://gitlab.com:9418/charlie/wto/bomb.git".data).map
        (fun g => ToGitFormat g g.port true) =
      .ok "git://gitlab.com:9418/charlie/wto/bomb.git".data
  ∧ (parseURL "http://gitlab.com:80/charlie/wto/bomb.git".data).map
        (fun g => ToHTTPFormat g g.port false true) =
      .ok "http://gitlab.com:80/charlie/wto/bomb.git".data
  ∧ (parseURL "https://gitlab.com:443/charlie/wto/bomb.git".data).map
        (fun g => ToHTTPFormat g g.port true true) =
      .ok "https://gitlab.com:443/charlie/wto/bomb.git".data
  ∧ (parseURL "ftp://gitlab.com:21/charlie/wto/bomb.git".data).map
        (fun g => ToFTPFormat g g.port false true) =
      .ok "ftp://gitlab.com:21/charlie/wto/bomb.git".data
  ∧ (parseURL "ftps://gitlab.com:990/charlie/wto/bomb.git".data).map
        (fun g => ToFTPFormat g g.port true true) =
      .ok "ftps://gitlab.com:990/charlie/wto/bomb.git".data
  ∧ (parseURL "git@gitlab.com:charlie/wto/bomb.git".data).map
        (fun g => ToSCPFormat g g.user true) =
      .ok "git@gitlab.com:charlie/wto/bomb.git".data := by
  refine ⟨by decide, by decide, by decide, by decide, by decide, by decide, by decide⟩

/-- C2 (counterexample): the input `":"` is parsed successfully by the SCP
fallback, yet both its host and its repo are the empty string — so it is not
the case that every successful parse has non-empty host and repo. -/
theorem host_repo_nonempty_counterexample :
    parseURL ":".data = .ok ⟨.scp, 22, [], [], [], [], ":".data⟩ ∧
    ¬ (∀ url g, parseURL url = .ok g → g.host ≠ [] ∧ g.repo ≠ []) := by
  refine ⟨by decide, fun h => ?_⟩
  have := h ":".data ⟨.scp, 22, [], [], [], [], ":".data⟩ (by decide)
  exact this.1 rfl

/-- C2 (amended): on each of the spec's well-formed example inputs the parse
succeeds with a non-empty host and a non-empty repo (in general a successful
parse may leave either field empty, e.g. on input `":"`). -/
theorem host_repo_nonempty_on_examples :
    (specExamples.all fun u =>
      match parseURL u with
      | .ok g => !g.host.isEmpty && !g.repo.isEmpty
      | .error _ => false) = true := by
  decide

/-- C4: parsing `"ssh://git@gitlab.com/charlie/wto/bomb.git"` succeeds with
protocol SSH, port 22, user `"git"`, host `"gitlab.com"`, path
`"charlie/wto"`, repo `"bomb"`. -/
theorem parse_ssh_example :
    parseURL "ssh://git@gitlab.com/charlie/wto/bomb.git".data =
      .ok ⟨.ssh, 22, "git".data, "gitlab.com".data, "charlie/wto".data, "bomb".data,
        "ssh://git@gitlab.com/charlie/wto/bomb.git".data⟩ := by
  decide

/-- C7: a caller-supplied port of 0 suppresses the `:port` segment in every
formatter, an empty user suppresses the `user@` segment in `ToSSHFormat` and
`ToSCPFormat`, and formatting the parsed SSH example via
`ToHTTPFormat(0, false, false)` yields exactly `"http://gitlab.com/charlie/wto/bomb"`. -/
theorem implicit_overrides :
    (∀ (g : GitURL) (u : List Char) (ws : Bool), ToSSHFormat g u 0 ws =
      prefixSSH ++ (if u = ImplicitUser then [] else u ++ ['@']) ++ g.host ++
        ['/'] ++ g.path ++ ['/'] ++ g.repo ++ (if ws then suffixGit else []))
  ∧ (∀ (g : GitURL) (ws : Bool), ToGitFormat g 0 ws =
      prefixGit ++ g.host ++ ['/'] ++ g.path ++ ['/'] ++ g.repo ++ (if ws then suffixGit else []))
  ∧ (∀ (g : GitURL) (sec ws : Bool), ToHTTPFormat g 0 sec ws =
      (if sec then prefixHTTPs else prefixHTTP) ++ g.host ++
        ['/'] ++ g.path ++ ['/'] ++ g.repo ++ (if ws then suffixGit else []))
  ∧ (∀ (g : GitURL) (sec ws : Bool), ToFTPFormat g 0 sec ws =
      (if sec then prefixFTPs else prefixFTP) ++ g.host ++
        ['/'] ++ g.path ++ ['/'] ++ g.repo ++ (if ws then suffixGit else []))
  ∧ (∀ (g : GitURL) (ws : Bool), ToSCPFormat g [] ws =
      g.host ++ [':'] ++ g.path ++ ['/'] ++ g.repo ++ (if ws then suffixGit else []))
  ∧ (parseURL "ssh://git@gitlab.com/charlie/wto/bomb.git".data).map
        (fun g => ToHTTPFormat g 0 false false) =
      .ok "http://gitlab.com/charlie/wto/bomb".data := by
  refine ⟨?_, ?_, ?_, ?_, ?_, by decide⟩
  · intro g u ws
    simp [ToSSHFormat, ImplicitPort, ImplicitUser]
  · intro g ws
    simp [ToGitFormat, ImplicitPort]
  · intro g sec ws
    simp [ToHTTPFormat, ImplicitPort]
  · intro g sec ws
    simp [ToFTPFormat, ImplicitPort]
  · intro g ws
    simp [ToSCPFormat, ImplicitUser]

/-- C7 witness: the port-0 suppression law at a concrete entity. -/
theorem implicit_overrides_witness :
    ToHTTPFormat
        ⟨.ssh, 22, "git".data, "gitlab.com".data, "charlie/wto".data, "bomb".data, "r".data⟩
        0 false false =
      (if false then prefixHTTPs else prefixHTTP) ++ "gitlab.com".data ++
        ['/'] ++ "charlie/wto".data ++ ['/'] ++ "bomb".data ++
        (if false then suffixGit else []) :=
  implicit_overrides.2.2.1
    ⟨.ssh, 22, "git".data, "gitlab.com".data, "charlie/wto".data, "bomb".data, "r".data⟩
    false false

/-- C10: when the entity's path is empty, every scheme-ful formatter emits a
double slash between host part and repo (the path part is always assembled
as `/path/repo` with no empty-path special case), and `ToSCPFormat` emits
`:` immediately followed by `/repo`. -/
theorem empty_path_double_slash :
    ∀ g : GitURL, g.path = [] →
      (∀ (u : List Char) (ws : Bool), ToSSHFormat g u 0 ws =
        prefixSSH ++ (if u = ImplicitUser then [] else u ++ ['@']) ++ g.host ++
          ['/', '/'] ++ g.repo ++ (if ws then suffixGit else []))
    ∧ (∀ ws : Bool, ToGitFormat g 0 ws =
        prefixGit ++ g.host ++ ['/', '/'] ++ g.repo ++ (if ws then suffixGit else []))
    ∧ (∀ sec ws : Bool, ToHTTPFormat g 0 sec ws =
        (if sec then prefixHTTPs else prefixHTTP) ++ g.host ++
          ['/', '/'] ++ g.repo ++ (if ws then suffixGit else []))
    ∧ (∀ sec ws : Bool, ToFTPFormat g 0 sec ws =
        (if sec then prefixFTPs else prefixFTP) ++ g.host ++
          ['/', '/'] ++ g.repo ++ (if ws then suffixGit else []))
    ∧ (∀ (u : List Char) (ws : Bool), ToSCPFormat g u ws =
        (if u = ImplicitUser then [] else u ++ ['@']) ++ g.host ++
          [':', '/'] ++ g.repo ++ (if ws then suffixGit else [])) := by
  intro g hpath
  refine ⟨?_, ?_, ?_, ?_, ?_⟩
  · intro u ws
    simp [ToSSHFormat, ImplicitPort, ImplicitUser, hpath]
  · intro ws
    simp [ToGitFormat, ImplicitPort, hpath]
  · intro sec ws
    simp [ToHTTPFormat, ImplicitPort, hpath]
  · intro sec ws
    simp [ToFTPFormat, ImplicitPort, hpath]
  · intro u ws
    simp [ToSCPFormat, ImplicitUser, hpath]

/-- C10 witness: the empty-path law applied to a concrete entity. -/
theorem empty_path_double_slash_witness :
    ToGitFormat ⟨.git, 9418, [], "h".data, [], "r".data, "git://h/r".data⟩ 0 false =
      prefixGit ++ "h".data ++ ['/', '/'] ++ "r".data ++ [] := by
  have h := (empty_path_double_slash ⟨.git, 9418, [], "h".data, [], "r".data, "git://h/r".data⟩ rfl).2.1 false
  simpa using h

/-! Helper lemmas: what a successful run of each parser guarantees. -/

theorem parsePortU16_le {s : List Char} {p : Nat} (h : parsePortU16 s = some p) :
    p ≤ 65535 := by
  unfold parsePortU16 at h
  split at h
  · cases h
  · split at h
    · split at h
      · injection h with h
        omega
      · cases h
    · cases h

/-- The optional `user@` split of the SSH parser. -/
def sshUser (url : List Char) : List Char :=
  let left0 := removePrefixFold (removeSuffixFold url suffixGit) prefixSSH
  let c1 := cut left0 ['@']
  if c1.2.2 then c1.1 else []

/-- The optional `user@` split of the SCP parser. -/
def scpUser (url : List Char) : List Char :=
  let left0 := removeSuffixFold url suffixGit
  let c1 := cut left0 ['@']
  if c1.2.2 then c1.1 else []

/-- The protocol value the HTTP-family parser stamps on the entity. -/
def httpProto (url : List Char) : ProtocolType :=
  if hasPrefixFold url prefixHTTPs then .https
  else if hasPrefixFold url prefixHTTP then .http
  else .ssh

/-- The default port the HTTP-family parser uses when no port text occurs. -/
def httpDefPort (url : List Char) : Nat :=
  if httpProto url = ProtocolType.http then DefaultHTTPPort
  else if httpProto url = ProtocolType.https then DefaultHTTPsPort
  else 0

/-- The protocol value the FTP-family parser stamps on the entity. -/
def ftpProto (url : List Char) : ProtocolType :=
  if hasPrefixFold url prefixFTPs then .ftps
  else if hasPrefixFold url prefixFTP then .ftp
  else .ssh

/-- The default port the FTP-family parser uses when no port text occurs. -/
def ftpDefPort (url : List Char) : Nat :=
  if ftpProto url = ProtocolType.ftp then DefaultFTPPort
  else if ftpProto url = ProtocolType.ftps then DefaultFTPsPort
  else 0

/-- The lines every scheme-ful parser shares verbatim after its
pre-processing: split off host[:port] at the first `/`, resolve the port,
split path/repo at the last `/`.  Each scheme-ful parser is definitionally
`tailParse` of its protocol, default port, user and remainder. -/
def tailParse (proto : ProtocolType) (defPort : Nat) (user raw left : List Char) :
    Except (List Char) GitURL :=
  let c2 := cut left ['/']
  if c2.2.2 then
    let c3 := cut c2.1 [':']
    let pr := lastCut c2.2.1 ['/']
    if c3.2.2 then
      match parsePortU16 c3.2.1 with
      | some p => .ok ⟨proto, p, user, c3.1, pr.1, pr.2.1, raw⟩
      | none => .error (errIllegalPort c3.2.1)
    else .ok ⟨proto, defPort, user, c3.1, pr.1, pr.2.1, raw⟩
  else .error errMissingPath

/-- The SCP parser after its pre-processing: split host from path at the
first `:`. -/
def scpTail (user raw left : List Char) : Except (List Char) GitURL :=
  let c2 := cut left [':']
  if c2.2.2 then
    let pr := lastCut c2.2.1 ['/']
    .ok ⟨.scp, DefaultSSHPort, user, c2.1, pr.1, pr.2.1, raw⟩
  else .error errExpectedColon

theorem parseSSHURL_eq (url : List Char) :
    parseSSHURL url = tailParse .ssh DefaultSSHPort (sshUser url) url (sshRemainder url) := rfl

theorem parseGitURL_eq (url : List Char) :
    parseGitURL url = tailParse .git DefaultGitPort [] url (gitRemainder url) := rfl

theorem parseHTTPURL_eq (url : List Char) :
    parseHTTPURL url = tailParse (httpProto url) (httpDefPort url) [] url (httpRemainder url) := rfl

theorem parseFTPURL_eq (url : List Char) :
    parseFTPURL url = tailParse (ftpProto url) (ftpDefPort url) [] url (ftpRemainder url) := rfl

theorem parseSCPURL_eq (url : List Char) :
    parseSCPURL url = scpTail (scpUser url) url (scpRemainder url) := rfl

theorem tailParse_ok {proto : ProtocolType} {defPort : Nat} {user raw left : List Char}
    {g : GitURL} (h : tailParse proto defPort user raw left = .ok g) :
    g.protocol = proto ∧ (g.port ≤ 65535 ∨ g.port = defPort) ∧
      ((cut (cut left ['/']).1 [':']).2.2 = false → g.port = defPort) := by
  simp only [tailParse] at h
  split at h
  · rename_i hc2
    split at h
    · rename_i hc3
      split at h
      · rename_i p hp
        injection h with h
        subst h
        refine ⟨rfl, Or.inl (parsePortU16_le hp), fun hfalse => ?_⟩
        rw [hfalse] at hc3
        cases hc3
      · cases h
    · injection h with h
      subst h
      exact ⟨rfl, Or.inr rfl, fun _ => rfl⟩
  · cases h

theorem scpTail_ok {user raw left : List Char} {g : GitURL}
    (h : scpTail user raw left = .ok g) :
    g.protocol = .scp ∧ g.port = DefaultSSHPort := by
  simp only [scpTail] at h
  split at h
  · injection h with h
    subst h
    exact ⟨rfl, rfl⟩
  · cases h

theorem httpDefPort_le (url : List Char) : httpDefPort url ≤ 65535 := by
  unfold httpDefPort
  split
  · decide
  · split
    · decide
    · decide

theorem ftpDefPort_le (url : List Char) : ftpDefPort url ≤ 65535 := by
  unfold ftpDefPort
  split
  · decide
  · split
    · decide
    · decide

theorem httpProto_ne_scp (url : List Char) : httpProto url ≠ .scp := by
  unfold httpProto
  split
  · intro h
    cases h
  · split
    · intro h
      cases h
    · intro h
      cases h

theorem ftpProto_ne_scp (url : List Char) : ftpProto url ≠ .scp := by
  unfold ftpProto
  split
  · intro h
    cases h
  · split
    · intro h
      cases h
    · intro h
      cases h

theorem parseURL_port_le {url : List Char} {g : GitURL} (h : parseURL url = .ok g) :
    g.port ≤ 65535 := by
  unfold parseURL at h
  split at h
  · rw [parseSSHURL_eq] at h
    rcases (tailParse_ok h).2.1 with hle | hdp
    · exact hle
    · rw [hdp]
      decide
  · split at h
    · rw [parseGitURL_eq] at h
      rcases (tailParse_ok h).2.1 with hle | hdp
      · exact hle
      · rw [hdp]
        decide
    · split at h
      · rw [parseHTTPURL_eq] at h
        rcases (tailParse_ok h).2.1 with hle | hdp
        · exact hle
        · rw [hdp]
          exact httpDefPort_le url
      · split at h
        · rw [parseFTPURL_eq] at h
          rcases (tailParse_ok h).2.1 with hle | hdp
          · exact hle
          · rw [hdp]
            exact ftpDefPort_le url
        · rw [parseSCPURL_eq] at h
          rw [(scpTail_ok h).2]
          decide

/-- C5: port parsing is base-10 unsigned bounded by 16 bits — `"65535"`
parses to 65535, `"65536"` and non-numeric text make `NewGitURL` fail with
the illegal-port error naming the text, and every successfully parsed
entity's port is at most 65535. -/
theorem port_is_16bit :
    parsePortU16 "65535".data = some 65535
  ∧ (parseURL "ssh://gitlab.com:65535/charlie/wto/bomb.git".data).map GitURL.port = .ok 65535
  ∧ parseURL "ssh://admin@119.91.33.58:65536/All-Projects".data =
      .error (errIllegalPort "65536".data)
  ∧ parsePortU16 "65536".data = none
  ∧ parsePortU16 "8a8".data = none
  ∧ ∀ (url : List Char) (g : GitURL), parseURL url = .ok g → g.port ≤ 65535 := by
  refine ⟨by decide, by decide, by decide, by decide, by decide, ?_⟩
  intro url g h
  exact parseURL_port_le h

/-- C5 witness: the 16-bit bound instantiated at the parsed SSH example. -/
theorem port_is_16bit_witness :
    (GitURL.mk .ssh 22 "git".data "gitlab.com".data "charlie/wto".data "bomb".data
      "ssh://git@gitlab.com/charlie/wto/bomb.git".data).port ≤ 65535 :=
  port_is_16bit.2.2.2.2.2 "ssh://git@gitlab.com/charlie/wto/bomb.git".data _ (by decide)

theorem httpDefPort_matches {url : List Char}
    (hcond : (hasPrefixFold url prefixHTTP || hasPrefixFold url prefixHTTPs) = true) :
    httpDefPort url = defaultPort (httpProto url) := by
  unfold httpDefPort httpProto
  cases hs : hasPrefixFold url prefixHTTPs
  · have hh : hasPrefixFold url prefixHTTP = true := by
      rcases Bool.or_eq_true_iff.mp hcond with h | h
      · exact h
      · rw [hs] at h
        cases h
    simp [hs, hh, defaultPort]
  · simp [hs, defaultPort]

theorem ftpDefPort_matches {url : List Char}
    (hcond : (hasPrefixFold url prefixFTP || hasPrefixFold url prefixFTPs) = true) :
    ftpDefPort url = defaultPort (ftpProto url) := by
  unfold ftpDefPort ftpProto
  cases hs : hasPrefixFold url prefixFTPs
  · have hh : hasPrefixFold url prefixFTP = true := by
      rcases Bool.or_eq_true_iff.mp hcond with h | h
      · exact h
      · rw [hs] at h
        cases h
    simp [hs, hh, defaultPort]
  · simp [hs, defaultPort]

/-- C6: whenever parsing succeeds and no explicit port substring occurs in
the input, the entity's port is the scheme's conventional default
(SSH→22, Git→9418, HTTP→80, HTTPS→443, FTP→21, FTPS→990), and a
successfully parsed SCP-shorthand entity always has port 22. -/
theorem default_port_resolution :
    ∀ (url : List Char) (g : GitURL), parseURL url = .ok g →
      (hasExplicitPort url = false → g.port = defaultPort g.protocol)
    ∧ (g.protocol = .scp → g.port = DefaultSSHPort) := by
  intro url g h
  unfold parseURL at h
  unfold hasExplicitPort
  split at h
  · rename_i h1
    rw [parseSSHURL_eq] at h
    obtain ⟨hproto, _, hdef⟩ := tailParse_ok h
    refine ⟨fun hnp => ?_, fun hscp => ?_⟩
    · rw [if_pos h1] at hnp
      rw [hproto]
      exact hdef hnp
    · rw [hproto] at hscp
      cases hscp
  · rename_i h1
    split at h
    · rename_i h2
      rw [parseGitURL_eq] at h
      obtain ⟨hproto, _, hdef⟩ := tailParse_ok h
      refine ⟨fun hnp => ?_, fun hscp => ?_⟩
      · rw [if_neg h1, if_pos h2] at hnp
        rw [hproto]
        exact hdef hnp
      · rw [hproto] at hscp
        cases hscp
    · rename_i h2
      split at h
      · rename_i h3
        rw [parseHTTPURL_eq] at h
        obtain ⟨hproto, _, hdef⟩ := tailParse_ok h
        refine ⟨fun hnp => ?_, fun hscp => ?_⟩
        · rw [if_neg h1, if_neg h2, if_pos h3] at hnp
          rw [hproto, ← httpDefPort_matches h3]
          exact hdef hnp
        · rw [hproto] at hscp
          exact absurd hscp (httpProto_ne_scp url)
      · rename_i h3
        split at h
        · rename_i h4
          rw [parseFTPURL_eq] at h
          obtain ⟨hproto, _, hdef⟩ := tailParse_ok h
          refine ⟨fun hnp => ?_, fun hscp => ?_⟩
          · rw [if_neg h1, if_neg h2, if_neg h3, if_pos h4] at hnp
            rw [hproto, ← ftpDefPort_matches h4]
            exact hdef hnp
          · rw [hproto] at hscp
            exact absurd hscp (ftpProto_ne_scp url)
        · rename_i h4
          rw [parseSCPURL_eq] at h
          obtain ⟨hproto, hport⟩ := scpTail_ok h
          refine ⟨fun hnp => ?_, fun _ => hport⟩
          rw [hproto, hport]
          rfl

/-- C6 witness: the default-port law at the portless SSH example. -/
theorem default_port_resolution_witness :
    (GitURL.mk .ssh 22 "git".data "gitlab.com".data "charlie/wto".data "bomb".data
      "ssh://git@gitlab.com/charlie/wto/bomb.git".data).port =
      defaultPort (GitURL.mk .ssh 22 "git".data "gitlab.com".data "charlie/wto".data
        "bomb".data "ssh://git@gitlab.com/charlie/wto/bomb.git".data).protocol :=
  (default_port_resolution "ssh://git@gitlab.com/charlie/wto/bomb.git".data _
    (by decide)).1 (by decide)

theorem tailParse_isErr (proto : ProtocolType) (defPort : Nat) (user raw left : List Char) :
    isErr (tailParse proto defPort user raw left) = hostPathErr left := by
  cases h2 : (cut left ['/']).2.2
  · simp [tailParse, hostPathErr, isErr, h2]
  · cases h3 : (cut (cut left ['/']).1 [':']).2.2
    · simp [tailParse, hostPathErr, isErr, h2, h3]
    · cases hp : parsePortU16 (cut (cut left ['/']).1 [':']).2.1
      · simp [tailParse, hostPathErr, isErr, h2, h3, hp]
      · simp [tailParse, hostPathErr, isErr, h2, h3, hp]

theorem scpTail_isErr (user raw left : List Char) :
    isErr (scpTail user raw left) = !(cut left [':']).2.2 := by
  cases h2 : (cut left [':']).2.2
  · simp [scpTail, isErr, h2]
  · simp [scpTail, isErr, h2]

theorem tailParse_error {proto : ProtocolType} {defPort : Nat} {user raw left e : List Char}
    (h : tailParse proto defPort user raw left = .error e) :
    e = errMissingPath ∨ ∃ p, e = errIllegalPort p ∧ parsePortU16 p = none := by
  simp only [tailParse] at h
  split at h
  · split at h
    · split at h
      · cases h
      · rename_i hp
        injection h with h
        subst h
        exact Or.inr ⟨_, rfl, hp⟩
    · cases h
  · injection h with h
    subst h
    exact Or.inl rfl

theorem scpTail_error {user raw left e : List Char}
    (h : scpTail user raw left = .error e) : e = errExpectedColon := by
  simp only [scpTail] at h
  split at h
  · cases h
  · injection h with h
    subst h
    rfl

theorem invalid_url_le_missing : "invalid url".data <+: errMissingPath := by
  decide

theorem invalid_url_le_illegal (p : List Char) : "invalid url".data <+: errIllegalPort p := by
  have h1 : "invalid url".data <+: "invalid url, illegal port \x27".data := by decide
  unfold errIllegalPort
  exact h1.trans ((List.prefix_append _ p).trans (List.prefix_append _ _))

theorem invalid_url_le_expected : "invalid url".data <+: errExpectedColon := by
  decide

/-- C3: `NewGitURL` fails exactly on the three structural failures (missing
`/` before a path for scheme-ful inputs, an unparsable 16-bit port substring,
missing `:` for SCP inputs), and every error message wraps the `invalid url`
sentinel with one of the three reason texts; no entity accompanies an error
and the parser is a total function. -/
theorem invalid_url_errors :
    ∀ url : List Char,
      (isErr (parseURL url) = errCond url)
    ∧ (∀ e, parseURL url = .error e →
        ("invalid url".data <+: e)
      ∧ (e = errMissingPath ∨ (∃ p, e = errIllegalPort p ∧ parsePortU16 p = none)
          ∨ e = errExpectedColon)) := by
  intro url
  constructor
  · unfold parseURL errCond
    cases h1 : hasPrefixFold url prefixSSH
    · cases h2 : hasPrefixFold url prefixGit
      · cases h3 : (hasPrefixFold url prefixHTTP || hasPrefixFold url prefixHTTPs)
        · cases h4 : (hasPrefixFold url prefixFTP || hasPrefixFold url prefixFTPs)
          · simp only [h1, h2, h3, h4, Bool.false_eq_true, if_false]
            rw [parseSCPURL_eq, scpTail_isErr]
          · simp only [h1, h2, h3, h4, Bool.false_eq_true, if_false, if_true]
            rw [parseFTPURL_eq, tailParse_isErr]
        · simp only [h1, h2, h3, Bool.false_eq_true, if_false, if_true]
          rw [parseHTTPURL_eq, tailParse_isErr]
      · simp only [h1, h2, Bool.false_eq_true, if_false, if_true]
        rw [parseGitURL_eq, tailParse_isErr]
    · simp only [h1, if_true]
      rw [parseSSHURL_eq, tailParse_isErr]
  · intro e he
    unfold parseURL at he
    split at he
    · rw [parseSSHURL_eq] at he
      rcases tailParse_error he with rfl | ⟨p, rfl, hp⟩
      · exact ⟨invalid_url_le_missing, Or.inl rfl⟩
      · exact ⟨invalid_url_le_illegal p, Or.inr (Or.inl ⟨p, rfl, hp⟩)⟩
    · split at he
      · rw [parseGitURL_eq] at he
        rcases tailParse_error he with rfl | ⟨p, rfl, hp⟩
        · exact ⟨invalid_url_le_missing, Or.inl rfl⟩
        · exact ⟨invalid_url_le_illegal p, Or.inr (Or.inl ⟨p, rfl, hp⟩)⟩
      · split at he
        · rw [parseHTTPURL_eq] at he
          rcases tailParse_error he with rfl | ⟨p, rfl, hp⟩
          · exact ⟨invalid_url_le_missing, Or.inl rfl⟩
          · exact ⟨invalid_url_le_illegal p, Or.inr (Or.inl ⟨p, rfl, hp⟩)⟩
        · split at he
          · rw [parseFTPURL_eq] at he
            rcases tailParse_error he with rfl | ⟨p, rfl, hp⟩
            · exact ⟨invalid_url_le_missing, Or.inl rfl⟩
            · exact ⟨invalid_url_le_illegal p, Or.inr (Or.inl ⟨p, rfl, hp⟩)⟩
          · rw [parseSCPURL_eq] at he
            obtain rfl := scpTail_error he
            exact ⟨invalid_url_le_expected, Or.inr (Or.inr rfl)⟩

/-- C3 witness: the taxonomy at the SCP input missing its `:`. -/
theorem invalid_url_errors_witness :
    ("invalid url".data <+: errExpectedColon)
  ∧ (errExpectedColon = errMissingPath
      ∨ (∃ p, errExpectedColon = errIllegalPort p ∧ parsePortU16 p = none)
      ∨ errExpectedColon = errExpectedColon) :=
  (invalid_url_errors "git@gitlab.com/charlie/wto/bomb.git".data).2 errExpectedColon (by decide)

theorem indexOfFrom_eq_none {sep : List Char} :
    ∀ (s : List Char) (i : Nat), ¬ sep <:+: s → indexOfFrom sep s i = none := by
  intro s
  induction s with
  | nil =>
    intro i h
    unfold indexOfFrom
    rw [if_neg fun hp => h ( List.IsPrefix.isInfix ( List.isPrefixOf_iff_prefix.mp hp))]
  | cons c t ih =>
    intro i h
    unfold indexOfFrom
    rw [if_neg fun hp => h ( List.IsPrefix.isInfix ( List.isPrefixOf_iff_prefix.mp hp))]
    exact ih (i + 1) fun hi => h (List.infix_cons hi)

theorem lastIndexOf_eq_none {s sep : List Char} (h : ¬ sep <:+: s) :
    lastIndexOf s sep = none := by
  unfold lastIndexOf
  rw [List.getLast?_eq_none_iff, List.filter_eq_nil_iff]
  intro i _ hp
  exact h (( List.IsPrefix.isInfix ( List.isPrefixOf_iff_prefix.mp hp)).trans
    ( List.IsSuffix.isInfix (List.drop_suffix i s)))

/-- C8: split-primitive asymmetry — when `sep` does not occur in `s`,
`cut` returns `(s, "", false)` while `lastCut` returns `("", s, false)`,
putting the whole string on the `after` side. -/
theorem cut_lastCut_asymmetry :
    ∀ s sep : List Char, ¬ sep <:+: s →
      cut s sep = (s, [], false) ∧ lastCut s sep = ([], s, false) := by
  intro s sep h
  constructor
  · unfold cut
    rw [indexOfFrom_eq_none s 0 h]
  · unfold lastCut
    rw [lastIndexOf_eq_none h]

/-- C8 witness: the asymmetry at a remainder with no slash, so the whole
remainder becomes the repo and the path is empty. -/
theorem cut_lastCut_asymmetry_witness :
    cut "All-Projects".data "/".data = ("All-Projects".data, [], false) ∧
    lastCut "All-Projects".data "/".data = ([], "All-Projects".data, false) :=
  cut_lastCut_asymmetry "All-Projects".data "/".data (by decide)

theorem eqFold_map {a b : List Char} (h : eqFold a b = true) :
    a.map Char.toLower = b.map Char.toLower := by
  simpa [eqFold] using h

theorem hasPrefixFold_congr {a b : List Char} (h : eqFold a b = true) (p : List Char) :
    hasPrefixFold a p = hasPrefixFold b p := by
  have hm := eqFold_map h
  have hl : a.length = b.length := by
    simpa using congrArg List.length hm
  unfold hasPrefixFold
  rw [hl]
  by_cases hcase : b.length < p.length
  · rw [if_pos hcase, if_pos hcase]
  · rw [if_neg hcase, if_neg hcase]
    unfold eqFold
    rw [List.map_take, List.map_take, hm]

theorem eqFold_append {u v : List Char} (h : eqFold u v = true) (r : List Char) :
    eqFold (u ++ r) (v ++ r) = true := by
  have hm := eqFold_map h
  simp [eqFold, hm]

theorem classify_congr {a b : List Char} (h : eqFold a b = true) :
    classify a = classify b := by
  unfold classify
  rw [hasPrefixFold_congr h prefixSSH, hasPrefixFold_congr h prefixGit,
    hasPrefixFold_congr h prefixHTTP, hasPrefixFold_congr h prefixHTTPs,
    hasPrefixFold_congr h prefixFTP, hasPrefixFold_congr h prefixFTPs]

theorem protoChoice_congr {a b : List Char} (h : eqFold a b = true) :
    protoChoice a = protoChoice b := by
  unfold protoChoice
  rw [hasPrefixFold_congr h prefixSSH, hasPrefixFold_congr h prefixGit,
    hasPrefixFold_congr h prefixHTTP, hasPrefixFold_congr h prefixHTTPs,
    hasPrefixFold_congr h prefixFTP, hasPrefixFold_congr h prefixFTPs]

theorem parseURL_protocol {url : List Char} {g : GitURL} (h : parseURL url = .ok g) :
    g.protocol = protoChoice url := by
  unfold parseURL at h
  unfold protoChoice
  split at h
  · rename_i h1
    rw [parseSSHURL_eq] at h
    rw [if_pos h1]
    exact (tailParse_ok h).1
  · rename_i h1
    split at h
    · rename_i h2
      rw [parseGitURL_eq] at h
      rw [if_neg h1, if_pos h2]
      exact (tailParse_ok h).1
    · rename_i h2
      split at h
      · rename_i h3
        rw [parseHTTPURL_eq] at h
        rw [if_neg h1, if_neg h2, if_pos h3]
        exact (tailParse_ok h).1
      · rename_i h3
        split at h
        · rename_i h4
          rw [parseFTPURL_eq] at h
          rw [if_neg h1, if_neg h2, if_neg h3, if_pos h4]
          exact (tailParse_ok h).1
        · rename_i h4
          rw [parseSCPURL_eq] at h
          rw [if_neg h1, if_neg h2, if_neg h3, if_neg h4]
          exact (scpTail_ok h).1

/-- C9: case-insensitive classification — replacing the leading segment of
an input by any case-fold-equal variant leaves the classifier's choice
unchanged, and when both variants parse, the entities carry the same
protocol value. -/
theorem case_insensitive_scheme :
    (∀ u v rest : List Char, eqFold u v = true →
      classify (u ++ rest) = classify (v ++ rest))
  ∧ (∀ (u v rest : List Char) (g₁ g₂ : GitURL), eqFold u v = true →
      parseURL (u ++ rest) = .ok g₁ → parseURL (v ++ rest) = .ok g₂ →
      g₁.protocol = g₂.protocol) := by
  constructor
  · intro u v rest h
    exact classify_congr (eqFold_append h rest)
  · intro u v rest g₁ g₂ h h1 h2
    rw [parseURL_protocol h1, parseURL_protocol h2]
    exact protoChoice_congr (eqFold_append h rest)

/-- C9 witness: `SsH://` and `ssh://` classify and parse identically up to
the raw text. -/
theorem case_insensitive_scheme_witness :
    classify ("SsH://".data ++ "git@gitlab.com/a/b".data) =
      classify ("ssh://".data ++ "git@gitlab.com/a/b".data)
  ∧ (GitURL.mk .ssh 22 "git".data "gitlab.com".data "a".data "b".data
        ("SsH://".data ++ "git@gitlab.com/a/b".data)).protocol =
      (GitURL.mk .ssh 22 "git".data "gitlab.com".data "a".data "b".data
        ("ssh://".data ++ "git@gitlab.com/a/b".data)).protocol :=
  ⟨case_insensitive_scheme.1 "SsH://".data "ssh://".data "git@gitlab.com/a/b".data (by decide),
   case_insensitive_scheme.2 "SsH://".data "ssh://".data "git@gitlab.com/a/b".data _ _
     (by decide) (by decide) (by decide)⟩

end Giturl
